import Mathlib

/-!
# Verification of the blood-request data-sync/filter/sort core

Shallow embedding of the real-time request view core of the repository:
the `BloodRequest` record schema (`src/types`), the live-query subscriber
state of `ViewRequestsPage` (snapshot mapping, loading flag, error callback),
the `filteredRequests` filter/sort pipeline and `resetFilters`.

Modelling conventions:
* A Firestore `Timestamp` is represented by its `toMillis` value, an `Int`.
* TypeScript optional fields become `Option`.
* String-literal union types (`BloodGroup`, `status`) are represented as
  `String`, matching their runtime representation; the `urgency` field read
  by the sort comparator is absent from the declared `BloodRequest`
  interface, so at runtime it may be missing or hold any string: it is
  modelled as `Option String` (`none` = the field is absent, i.e. the
  JavaScript value `undefined`).
* JavaScript `<` / `>` on `urgencyOrder[x]` lookups return `false` whenever
  a lookup is `undefined` (NaN comparison); `jsLt` / `jsGt` embed this.
* `Array.prototype.sort` with a comparator is, per ECMAScript 2019, a
  stable sort consistent with the comparator; it is embedded as
  `List.insertionSort` over the relation `sortCmp a b ≤ 0`, which is the
  standard stable sort and agrees with every stable sort whenever the
  comparator is consistent.
-/

namespace BloodLink

/-- `BloodRequest` from `src/types`: the typed record shape. `id` is the
Firestore document identifier (optional in the interface), `createdAt` a
timestamp in milliseconds. The `urgency` field does not appear in the
declared interface but is read by the sort comparator, hence
`Option String`. -/
structure BloodRequest where
  id : Option String
  userId : String
  requesterName : Option String
  patientName : Option String
  bloodGroup : String
  location : String
  contactInformation : String
  additionalNotes : Option String
  createdAt : Int
  status : String
  urgency : Option String
  deriving DecidableEq

/-- The eight enumerated ABO/Rh blood groups (`bloodGroups` in `src/types`). -/
def bloodGroups : List String :=
  ["A+", "A-", "B+", "B-", "AB+", "AB-", "O+", "O-"]

/-- The object literal `urgencyOrder = { Urgent: 1, Moderate: 2, Low: 3 }`;
property lookup on any other key yields `undefined` (`none`). -/
def urgencyOrder : String → Option Int
  | "Urgent" => some 1
  | "Moderate" => some 2
  | "Low" => some 3
  | _ => none

/-- `urgencyOrder[r.urgency]`: when the `urgency` field is absent the lookup
key is `undefined` and the result is `undefined` (`none`). -/
def urgencyRank (r : BloodRequest) : Option Int :=
  r.urgency.bind urgencyOrder

/-- JavaScript `<` on two lookup results: `false` when either operand is
`undefined` (NaN comparison). -/
def jsLt : Option Int → Option Int → Bool
  | some a, some b => decide (a < b)
  | _, _ => false

/-- JavaScript `>` on two lookup results: `false` when either operand is
`undefined` (NaN comparison). -/
def jsGt : Option Int → Option Int → Bool
  | some a, some b => decide (b < a)
  | _, _ => false

/-- The comparator passed to `.sort` in `filteredRequests`:
urgency rank first (`-1` / `1`), then `b.createdAt.toMillis() -
a.createdAt.toMillis()` (newest first). -/
def sortCmp (a b : BloodRequest) : Int :=
  if jsLt (urgencyRank a) (urgencyRank b) then -1
  else if jsGt (urgencyRank a) (urgencyRank b) then 1
  else b.createdAt - a.createdAt

/-- The total preorder realised by the comparator: `a` may stay before `b`
exactly when `sortCmp a b ≤ 0`. -/
def sortLE (a b : BloodRequest) : Prop :=
  sortCmp a b ≤ 0

instance : DecidableRel sortLE := fun a b => Int.decLe (sortCmp a b) 0

/-- The sort step of the pipeline: ECMAScript `Array.prototype.sort` with
`sortCmp`, i.e. the stable sort by `sortLE`. -/
def sortRequests (l : List BloodRequest) : List BloodRequest :=
  List.insertionSort sortLE l

/-- First filter of the pipeline:
`bloodGroupFilter === "all" || req.bloodGroup === bloodGroupFilter`. -/
def bloodGroupPred (bloodGroupFilter : String) (req : BloodRequest) : Bool :=
  bloodGroupFilter == "all" || req.bloodGroup == bloodGroupFilter

/-- Substring containment on character lists, as JavaScript
`String.prototype.includes` (the empty pattern is contained in anything). -/
def containsSub (pat : List Char) : List Char → Bool
  | [] => pat.isEmpty
  | c :: t => pat.isPrefixOf (c :: t) || containsSub pat t

/-- `s.toLowerCase()` as a character list: lowercase every character. -/
def lowerData (s : String) : List Char :=
  s.data.map Char.toLower

/-- `hay.toLowerCase().includes(pat.toLowerCase())`. -/
def containsCI (hay pat : String) : Bool :=
  containsSub (lowerData pat) (lowerData hay)

/-- Second filter of the pipeline:
`locationFilter === "" || req.location.toLowerCase().includes(locationFilter.toLowerCase())`. -/
def locationPred (locationFilter : String) (req : BloodRequest) : Bool :=
  locationFilter == "" || containsCI req.location locationFilter

/-- The `filteredRequests` memo of `ViewRequestsPage`:
`requests.filter(bloodGroup).filter(location).sort(sortCmp)`. -/
def filteredRequests (requests : List BloodRequest)
    (bloodGroupFilter locationFilter : String) : List BloodRequest :=
  sortRequests
    ((requests.filter (bloodGroupPred bloodGroupFilter)).filter
      (locationPred locationFilter))

/-- A record is well formed when its `urgency` field is present and is one
of the three enumerated urgency values (the spec data model). -/
def validReq (r : BloodRequest) : Prop :=
  r.urgency = some "Urgent" ∨ r.urgency = some "Moderate" ∨ r.urgency = some "Low"

instance : DecidablePred validReq := fun r => by
  unfold validReq; infer_instance

/-! ## Live Query Subscriber: snapshot mapping and component state -/

/-- The stored payload of a document on the wire (`doc.data()`): the fields
persisted at creation. The document identifier is not part of the stored
payload (it is carried separately, as `doc.id`). `createdAt` arrives as the
wire timestamp value. -/
structure RequestDocData where
  userId : String
  requesterName : Option String
  patientName : Option String
  bloodGroup : String
  location : String
  contactInformation : String
  additionalNotes : Option String
  createdAt : Int
  status : String
  urgency : Option String
  deriving DecidableEq

/-- A document of a query snapshot: identifier plus stored payload. -/
structure SnapshotDoc where
  id : String
  data : RequestDocData
  deriving DecidableEq

/-- The cast `doc.data().createdAt as Timestamp`: a TypeScript type
assertion, the identity at runtime, fixing the timestamp representation. -/
def coerceTimestamp (t : Int) : Int :=
  t

/-- `{ id: doc.id, ...doc.data(), createdAt: doc.data().createdAt as Timestamp }`:
one snapshot document becomes one typed record, the identifier attached as
the `id` field. -/
def toBloodRequest (doc : SnapshotDoc) : BloodRequest :=
  { id := some doc.id
    userId := doc.data.userId
    requesterName := doc.data.requesterName
    patientName := doc.data.patientName
    bloodGroup := doc.data.bloodGroup
    location := doc.data.location
    contactInformation := doc.data.contactInformation
    additionalNotes := doc.data.additionalNotes
    createdAt := coerceTimestamp doc.data.createdAt
    status := doc.data.status
    urgency := doc.data.urgency }

/-- The `querySnapshot.forEach` loop of the snapshot callback: every
document pushed onto `fetchedRequests` in snapshot order. -/
def mapSnapshot (docs : List SnapshotDoc) : List BloodRequest :=
  docs.map toBloodRequest

/-- The reactive state of `ViewRequestsPage`: the four `useState` cells plus
a count of active `onSnapshot` subscriptions held by the effect. -/
structure PageState where
  requests : List BloodRequest
  loading : Bool
  bloodGroupFilter : String
  locationFilter : String
  subscriptionCount : Nat
  deriving DecidableEq

/-- State right after mount: `useState` initial values (`[]`, `true`,
`"all"`, `""`) and the one subscription opened by the effect. -/
def initialState : PageState :=
  { requests := []
    loading := true
    bloodGroupFilter := "all"
    locationFilter := ""
    subscriptionCount := 1 }

/-- The `onSnapshot` next callback: replace the record cache with the mapped
snapshot and clear the loading flag. -/
def onSnapshotNext (docs : List SnapshotDoc) (s : PageState) : PageState :=
  { s with requests := mapSnapshot docs, loading := false }

/-- The `onSnapshot` error callback: `console.error` and `setLoading(false)`;
nothing else is touched and no new subscription is opened. -/
def onSnapshotError (s : PageState) : PageState :=
  { s with loading := false }

/-- `resetFilters`: restore both filter cells to their defaults. -/
def resetFilters (s : PageState) : PageState :=
  { s with bloodGroupFilter := "all", locationFilter := "" }

/-- The events that can reach the mounted component: a delivered snapshot,
a transport error, the two filter setters, the reset button, and the effect
cleanup (`unsubscribe`). -/
inductive Event where
  | snapshot (docs : List SnapshotDoc)
  | error
  | setBloodGroupFilter (g : String)
  | setLocationFilter (l : String)
  | reset
  | unsubscribe
  deriving DecidableEq

/-- One event applied to the component state. -/
def step (s : PageState) : Event → PageState
  | .snapshot docs => onSnapshotNext docs s
  | .error => onSnapshotError s
  | .setBloodGroupFilter g => { s with bloodGroupFilter := g }
  | .setLocationFilter l => { s with locationFilter := l }
  | .reset => resetFilters s
  | .unsubscribe => { s with subscriptionCount := s.subscriptionCount - 1 }

/-- State after a trace of events delivered to the mounted component. -/
def runEvents (tr : List Event) : PageState :=
  tr.foldl step initialState

/-- Whether an event ends the loading phase: exactly the first snapshot or
error callback does. -/
def endsLoading : Event → Bool
  | .snapshot _ => true
  | .error => true
  | _ => false

/-! ## Array-heap execution of the pipeline

`Array.prototype.filter` allocates a fresh array; `Array.prototype.sort`
sorts its receiver in place and returns it. To state that the pipeline
never mutates the `requests` snapshot array, its execution is modelled
against an explicit heap of arrays addressed by index. -/

/-- A heap of request arrays; an address is an index into `arrs`. -/
structure Heap where
  arrs : List (List BloodRequest)

/-- Read the array at an address (out-of-range reads see an empty array). -/
def readArr (h : Heap) (i : Nat) : List BloodRequest :=
  h.arrs.getD i []

/-- Allocate a fresh array, returning the new heap and its address. -/
def allocArr (h : Heap) (a : List BloodRequest) : Heap × Nat :=
  (⟨h.arrs ++ [a]⟩, h.arrs.length)

/-- Overwrite the array at an address (in-place mutation). -/
def writeArr (h : Heap) (i : Nat) (a : List BloodRequest) : Heap :=
  ⟨h.arrs.set i a⟩

/-- Execution of `requests.filter(...).filter(...).sort(...)` against the
heap: each `filter` reads its receiver and allocates a fresh array, `sort`
mutates the second copy in place and returns it; the snapshot array at
`reqRef` is only ever read. -/
def runFilteredRequests (h : Heap) (reqRef : Nat)
    (bloodGroupFilter locationFilter : String) : Heap × Nat :=
  let a1 := (readArr h reqRef).filter (bloodGroupPred bloodGroupFilter)
  let p1 := allocArr h a1
  let a2 := (readArr p1.1 p1.2).filter (locationPred locationFilter)
  let p2 := allocArr p1.1 a2
  let h3 := writeArr p2.1 p2.2 (sortRequests (readArr p2.1 p2.2))
  (h3, p2.2)

/-! ## Concrete sample records (used to witness theorems on concrete inputs) -/

/-- Build a sample record. -/
def mkReq (i bg loc : String) (t : Int) (u : Option String) : BloodRequest :=
  { id := some i, userId := "u0", requesterName := none, patientName := none,
    bloodGroup := bg, location := loc, contactInformation := "017",
    additionalNotes := none, createdAt := t, status := "active", urgency := u }

/-- Sample urgent request. -/
def wUrg : BloodRequest := mkReq "1" "A+" "Dhaka" 0 (some "Urgent")

/-- Sample low-urgency request. -/
def wLow : BloodRequest := mkReq "2" "O-" "Chittagong" 9 (some "Low")

/-- Sample record whose `urgency` field is absent. -/
def wBad : BloodRequest := mkReq "3" "B+" "Dhaka" 5 none

/-- Two records tied on urgency and timestamp, distinguished by `id`. -/
def wTie1 : BloodRequest := mkReq "4" "A+" "Sylhet" 7 (some "Moderate")

/-- Second record of the tie. -/
def wTie2 : BloodRequest := mkReq "5" "B-" "Khulna" 7 (some "Moderate")

/-- Sample snapshot document. -/
def wDoc : SnapshotDoc :=
  { id := "doc9"
    data := { userId := "u0", requesterName := none, patientName := none,
              bloodGroup := "A+", location := "Dhaka", contactInformation := "017",
              additionalNotes := none, createdAt := 42, status := "active",
              urgency := some "Urgent" } }

/-! ## Comparator lemmas -/

theorem jsLt_none_left (x : Option Int) : jsLt none x = false := rfl

theorem jsLt_none_right (x : Option Int) : jsLt x none = false := by
  cases x <;> rfl

theorem jsLt_some_some (a b : Int) : jsLt (some a) (some b) = decide (a < b) := rfl

theorem jsGt_none_left (x : Option Int) : jsGt none x = false := rfl

theorem jsGt_none_right (x : Option Int) : jsGt x none = false := by
  cases x <;> rfl

theorem jsGt_some_some (a b : Int) : jsGt (some a) (some b) = decide (b < a) := rfl

/-- On records with resolvable urgency rank, the comparator relation is the
lexicographic order: rank ascending, then `createdAt` descending. -/
theorem sortLE_iff_of_rank {a b : BloodRequest} {na nb : Int}
    (ha : urgencyRank a = some na) (hb : urgencyRank b = some nb) :
    sortLE a b ↔ (na < nb ∨ (na = nb ∧ b.createdAt ≤ a.createdAt)) := by
  unfold sortLE sortCmp
  rw [ha, hb, jsLt_some_some, jsGt_some_some]
  split_ifs with h1 h2 <;> simp_all <;> omega

/-- The comparator relation is total. -/
theorem sortLE_total (a b : BloodRequest) : sortLE a b ∨ sortLE b a := by
  unfold sortLE sortCmp
  rcases ha : urgencyRank a with _ | na <;> rcases hb : urgencyRank b with _ | nb <;>
    simp only [jsLt_none_left, jsLt_none_right, jsGt_none_left, jsGt_none_right,
      jsLt_some_some, jsGt_some_some, Bool.false_eq_true, if_false] <;>
    (try split_ifs) <;> (try simp_all) <;> omega

/-- Records with equal `urgency` fields are compared by recency alone. -/
theorem sortLE_iff_of_eq_urgency {a b : BloodRequest} (h : a.urgency = b.urgency) :
    sortLE a b ↔ b.createdAt ≤ a.createdAt := by
  unfold sortLE sortCmp urgencyRank
  rw [h]
  rcases b.urgency.bind urgencyOrder with _ | n <;>
    simp only [jsLt_none_left, jsGt_none_left, jsLt_some_some, jsGt_some_some,
      Bool.false_eq_true, if_false] <;>
    (try split_ifs) <;> simp_all

/-- A record's urgency rank is the table lookup of its urgency value. -/
theorem urgencyRank_eq_of_urgency {r : BloodRequest} {u : String}
    (h : r.urgency = some u) : urgencyRank r = urgencyOrder u := by
  rw [urgencyRank, h]; rfl

/-- A well-formed record has a rank between 1 and 3. -/
theorem validReq_rank {r : BloodRequest} (h : validReq r) :
    ∃ n : Int, urgencyRank r = some n ∧ 1 ≤ n ∧ n ≤ 3 := by
  rcases h with h | h | h
  · exact ⟨1, by rw [urgencyRank_eq_of_urgency h]; rfl, by omega, by omega⟩
  · exact ⟨2, by rw [urgencyRank_eq_of_urgency h]; rfl, by omega, by omega⟩
  · exact ⟨3, by rw [urgencyRank_eq_of_urgency h]; rfl, by omega, by omega⟩

/-- On well-formed records the comparator relation is transitive. -/
theorem sortLE_trans_of_valid {a b c : BloodRequest}
    (ha : validReq a) (hb : validReq b) (hc : validReq c)
    (hab : sortLE a b) (hbc : sortLE b c) : sortLE a c := by
  obtain ⟨na, hra, _, _⟩ := validReq_rank ha
  obtain ⟨nb, hrb, _, _⟩ := validReq_rank hb
  obtain ⟨nc, hrc, _, _⟩ := validReq_rank hc
  rw [sortLE_iff_of_rank hra hrb] at hab
  rw [sortLE_iff_of_rank hrb hrc] at hbc
  rw [sortLE_iff_of_rank hra hrc]
  omega

/-! ## Sortedness of the sort step on well-formed inputs -/

/-- `orderedInsert` preserves sortedness when all records involved are well
formed (the comparator is transitive there). -/
theorem sorted_orderedInsert_valid (a : BloodRequest) :
    ∀ l : List BloodRequest, validReq a → (∀ x ∈ l, validReq x) →
      l.Sorted sortLE → (l.orderedInsert sortLE a).Sorted sortLE
  | [], _, _, _ => List.sorted_singleton a
  | b :: l, ha, hl, hs => by
    by_cases h' : sortLE a b
    · rw [List.orderedInsert, if_pos h', List.sorted_cons]
      refine ⟨List.forall_mem_cons.2 ⟨h', fun c hc => ?_⟩, hs⟩
      exact sortLE_trans_of_valid ha (hl b (List.mem_cons_self b l))
        (hl c (List.mem_cons_of_mem b hc)) h' (List.rel_of_sorted_cons hs c hc)
    · rw [List.orderedInsert, if_neg h', List.sorted_cons]
      have htail : ∀ x ∈ l, validReq x := fun x hx => hl x (List.mem_cons_of_mem b hx)
      refine ⟨fun b' hb' => ?_,
        sorted_orderedInsert_valid a l ha htail hs.of_cons⟩
      rcases (List.mem_orderedInsert sortLE).mp hb' with heq | hb'
      · rw [heq]; exact (sortLE_total a b).resolve_left h'
      · exact List.rel_of_sorted_cons hs _ hb'

/-- The sort step yields a list sorted by the comparator relation whenever
all input records are well formed. -/
theorem sorted_insertionSort_valid :
    ∀ l : List BloodRequest, (∀ x ∈ l, validReq x) →
      (List.insertionSort sortLE l).Sorted sortLE
  | [], _ => List.sorted_nil
  | a :: l, hl => by
    have htail : ∀ x ∈ l, validReq x := fun x hx => hl x (List.mem_cons_of_mem a hx)
    simp only [List.insertionSort]
    exact sorted_orderedInsert_valid a _ (hl a (List.mem_cons_self a l))
      (fun x hx => htail x ((List.mem_insertionSort sortLE).mp hx))
      (sorted_insertionSort_valid l htail)

/-! ## Idempotence machinery: adjacent order always holds in the output -/

/-- Inserting into an adjacently-ordered list keeps it adjacently ordered;
this needs only totality of the relation, which holds unconditionally. -/
theorem chain'_orderedInsert (a : BloodRequest) :
    ∀ m : List BloodRequest, List.Chain' sortLE m →
      List.Chain' sortLE (List.orderedInsert sortLE a m)
  | [], _ => List.chain'_singleton a
  | b :: t, hm => by
    by_cases h' : sortLE a b
    · rw [List.orderedInsert, if_pos h']
      exact List.chain'_cons.mpr ⟨h', hm⟩
    · rw [List.orderedInsert, if_neg h']
      refine List.chain'_cons'.mpr ⟨?_, chain'_orderedInsert a t hm.tail⟩
      intro y hy
      cases t with
      | nil =>
        simp only [List.orderedInsert, List.head?] at hy
        cases hy
        exact (sortLE_total a b).resolve_left h'
      | cons c t' =>
        rw [List.orderedInsert] at hy
        by_cases h2 : sortLE a c
        · rw [if_pos h2] at hy
          simp only [List.head?] at hy
          cases hy
          exact (sortLE_total a b).resolve_left h'
        · rw [if_neg h2] at hy
          simp only [List.head?] at hy
          cases hy
          exact (List.chain'_cons.mp hm).1

/-- The output of the sort step is always adjacently ordered. -/
theorem chain'_insertionSort :
    ∀ l : List BloodRequest, List.Chain' sortLE (List.insertionSort sortLE l)
  | [] => List.chain'_nil
  | a :: l => by
    simp only [List.insertionSort]
    exact chain'_orderedInsert a _ (chain'_insertionSort l)

/-- The sort step leaves an adjacently-ordered list unchanged. -/
theorem insertionSort_eq_of_chain' :
    ∀ m : List BloodRequest, List.Chain' sortLE m → List.insertionSort sortLE m = m
  | [], _ => rfl
  | a :: t, h => by
    simp only [List.insertionSort]
    rw [insertionSort_eq_of_chain' t h.tail]
    cases t with
    | nil => rfl
    | cons b t' => rw [List.orderedInsert, if_pos (List.chain'_cons.mp h).1]

/-! ## Heap read/write lemmas -/

theorem readArr_allocArr_self (h : Heap) (a : List BloodRequest) :
    readArr (allocArr h a).1 (allocArr h a).2 = a := by
  simp [readArr, allocArr, List.getD_eq_getElem?_getD]

theorem readArr_allocArr_of_lt (h : Heap) (a : List BloodRequest) (i : Nat)
    (hi : i < h.arrs.length) :
    readArr (allocArr h a).1 i = readArr h i := by
  simp [readArr, allocArr, List.getD_eq_getElem?_getD, List.getElem?_append_left hi]

theorem readArr_writeArr_ne (h : Heap) (i j : Nat) (a : List BloodRequest)
    (hij : i ≠ j) :
    readArr (writeArr h j a) i = readArr h i := by
  simp [readArr, writeArr, List.getD_eq_getElem?_getD, List.getElem?_set_ne (Ne.symm hij)]

theorem readArr_writeArr_self (h : Heap) (i : Nat) (a : List BloodRequest)
    (hi : i < h.arrs.length) :
    readArr (writeArr h i a) i = a := by
  simp [readArr, writeArr, List.getD_eq_getElem?_getD, List.getElem?_set_self, hi]

theorem allocArr_snd (h : Heap) (a : List BloodRequest) :
    (allocArr h a).2 = h.arrs.length := rfl

theorem allocArr_length (h : Heap) (a : List BloodRequest) :
    (allocArr h a).1.arrs.length = h.arrs.length + 1 := by
  simp [allocArr]

/-! ## Loading-flag trace lemma -/

/-- Along any trace, the loading flag is the initial flag conjoined with
the absence of a loading-ending event: only the snapshot and error
callbacks write it, and they only write `false`. -/
theorem loading_foldl : ∀ (tr : List Event) (s : PageState),
    (tr.foldl step s).loading = (s.loading && !(tr.any endsLoading))
  | [], s => by simp
  | e :: tr, s => by
    rw [List.foldl_cons, loading_foldl tr (step s e)]
    cases e <;>
      simp [step, endsLoading, onSnapshotNext, onSnapshotError, resetFilters]

/-! ## Claim theorems -/

/-- Claim C1: on every snapshot of well-formed records (urgency one of
`Urgent`/`Moderate`/`Low`, as the data model requires), the engine output is
ordered by the composite key: every `Urgent` record appears strictly before
every `Moderate` or `Low` record regardless of timestamps, and among records
of equal urgency the newer `createdAt` appears first. -/
theorem urgency_dominates_recency (requests : List BloodRequest) (g l : String)
    (hv : ∀ r ∈ requests, validReq r) :
    (∀ i j : Fin (filteredRequests requests g l).length,
        ((filteredRequests requests g l).get i).urgency = some "Urgent" →
        (((filteredRequests requests g l).get j).urgency = some "Moderate" ∨
          ((filteredRequests requests g l).get j).urgency = some "Low") →
        (i : Nat) < (j : Nat)) ∧
    (∀ i j : Fin (filteredRequests requests g l).length,
        (i : Nat) < (j : Nat) →
        ((filteredRequests requests g l).get i).urgency =
          ((filteredRequests requests g l).get j).urgency →
        ((filteredRequests requests g l).get j).createdAt ≤
          ((filteredRequests requests g l).get i).createdAt) := by
  have hvf : ∀ x ∈ (requests.filter (bloodGroupPred g)).filter (locationPred l),
      validReq x :=
    fun x hx => hv x (List.mem_filter.mp (List.mem_filter.mp hx).1).1
  have hsorted : (filteredRequests requests g l).Sorted sortLE :=
    sorted_insertionSort_valid _ hvf
  constructor
  · intro i j hU hML
    by_contra hne
    push_neg at hne
    rcases Nat.lt_or_ge (j : Nat) (i : Nat) with hji | hji
    · have hrel := hsorted.rel_get_of_lt (show j < i from hji)
      have hri : urgencyRank ((filteredRequests requests g l).get i) = some 1 := by
        rw [urgencyRank_eq_of_urgency hU]; rfl
      rcases hML with hM | hM
      · have hrj : urgencyRank ((filteredRequests requests g l).get j) = some 2 := by
          rw [urgencyRank_eq_of_urgency hM]; rfl
        rw [sortLE_iff_of_rank hrj hri] at hrel
        omega
      · have hrj : urgencyRank ((filteredRequests requests g l).get j) = some 3 := by
          rw [urgencyRank_eq_of_urgency hM]; rfl
        rw [sortLE_iff_of_rank hrj hri] at hrel
        omega
    · have hij : (i : Nat) = (j : Nat) := by omega
      have hgets : (filteredRequests requests g l).get i =
          (filteredRequests requests g l).get j := by
        congr 1
        exact Fin.ext hij
      rw [← hgets, hU] at hML
      rcases hML with hM | hM <;> simp at hM
  · intro i j hij hu
    have hrel := hsorted.rel_get_of_lt (show i < j from hij)
    rw [sortLE_iff_of_eq_urgency hu] at hrel
    exact hrel

/-- Witness for C1 at a concrete snapshot. -/
theorem urgency_dominates_recency_witness :
    (∀ r ∈ [wLow, wUrg], validReq r) ∧
    ((∀ i j : Fin (filteredRequests [wLow, wUrg] "all" "").length,
        ((filteredRequests [wLow, wUrg] "all" "").get i).urgency = some "Urgent" →
        (((filteredRequests [wLow, wUrg] "all" "").get j).urgency = some "Moderate" ∨
          ((filteredRequests [wLow, wUrg] "all" "").get j).urgency = some "Low") →
        (i : Nat) < (j : Nat)) ∧
      (∀ i j : Fin (filteredRequests [wLow, wUrg] "all" "").length,
        (i : Nat) < (j : Nat) →
        ((filteredRequests [wLow, wUrg] "all" "").get i).urgency =
          ((filteredRequests [wLow, wUrg] "all" "").get j).urgency →
        ((filteredRequests [wLow, wUrg] "all" "").get j).createdAt ≤
          ((filteredRequests [wLow, wUrg] "all" "").get i).createdAt)) :=
  ⟨by decide, urgency_dominates_recency [wLow, wUrg] "all" "" (by decide)⟩

/-- Claim C2 counterexample: on a snapshot containing a record whose
`urgency` field is absent, the engine does not fail: it returns an ordering
(here the missing-urgency record, being newer, is placed by the `createdAt`
fallback ahead of an `Urgent` record). -/
theorem missing_urgency_counterexample :
    filteredRequests [wBad, wUrg] "all" "" = [wBad, wUrg] := by decide

/-- Claim C2 amended: on a record with missing or unknown urgency the
comparator's two urgency comparisons are both false, so it silently falls
back to the `createdAt` tie-break, and the engine always produces an
ordering (a permutation of the retained set) rather than an error. -/
theorem missing_urgency_silent_default :
    (∀ a b : BloodRequest, urgencyRank a = none →
      sortCmp a b = b.createdAt - a.createdAt ∧
      sortCmp b a = a.createdAt - b.createdAt) ∧
    (∀ (R : List BloodRequest) (g l : String),
      List.Perm (filteredRequests R g l)
        ((R.filter (bloodGroupPred g)).filter (locationPred l))) := by
  constructor
  · intro a b ha
    unfold sortCmp
    rw [ha, jsLt_none_left, jsGt_none_left, jsLt_none_right, jsGt_none_right]
    simp
  · intro R g l
    exact List.perm_insertionSort sortLE _

/-- Witness for the C2 amendment at a concrete record pair. -/
theorem missing_urgency_silent_default_witness :
    urgencyRank wBad = none ∧
    sortCmp wBad wUrg = wUrg.createdAt - wBad.createdAt :=
  ⟨rfl, (missing_urgency_silent_default.1 wBad wUrg rfl).1⟩

/-- Claim C3: every record in the engine output is an element of the input
snapshot, its blood group equals the filter unless the filter is `"all"`,
and its location contains the location filter case-insensitively unless the
filter is empty. -/
theorem filteredRequests_subset_and_filters (R : List BloodRequest) (g l : String)
    (r : BloodRequest) (hr : r ∈ filteredRequests R g l) :
    r ∈ R ∧ (g = "all" ∨ r.bloodGroup = g) ∧
      (l = "" ∨ containsCI r.location l = true) := by
  rw [filteredRequests, sortRequests] at hr
  have hr2 := (List.mem_insertionSort sortLE).mp hr
  obtain ⟨hmem1, hloc⟩ := List.mem_filter.mp hr2
  obtain ⟨hmemR, hbg⟩ := List.mem_filter.mp hmem1
  refine ⟨hmemR, ?_, ?_⟩
  · simpa [bloodGroupPred] using hbg
  · simpa [locationPred] using hloc

/-- Witness for C3 at a concrete snapshot and filters. -/
theorem filteredRequests_subset_and_filters_witness :
    wUrg ∈ filteredRequests [wLow, wUrg] "all" "dha" ∧
    (wUrg ∈ [wLow, wUrg] ∧ ("all" = "all" ∨ wUrg.bloodGroup = "all") ∧
      ("dha" = "" ∨ containsCI wUrg.location "dha" = true)) :=
  ⟨by decide,
    filteredRequests_subset_and_filters [wLow, wUrg] "all" "dha" wUrg (by decide)⟩

/-- Claim C4: when the subscription's error callback fires, the loading flag
becomes false, the previously delivered snapshot is retained unchanged, and
the number of active subscriptions does not change (no automatic
re-subscription). -/
theorem error_callback_retains_snapshot (s : PageState) :
    step s Event.error = onSnapshotError s ∧
    (onSnapshotError s).loading = false ∧
    (onSnapshotError s).requests = s.requests ∧
    (onSnapshotError s).subscriptionCount = s.subscriptionCount :=
  ⟨rfl, rfl, rfl, rfl⟩

/-- Claim C5: after any event trace from the mounted component's initial
state, the loading flag is `true` exactly when no snapshot or error callback
has yet run; in particular it is `true` at initialization, becomes `false`
at the first snapshot or error, and no later event (further snapshots,
errors, filter changes, reset, unsubscribe) ever makes it `true` again. -/
theorem loading_true_iff_no_snapshot_or_error (tr : List Event) :
    (runEvents tr).loading = !(tr.any endsLoading) := by
  rw [runEvents, loading_foldl tr initialState]
  rfl

/-- Claim C6 (stability of the sort step): two records tied on urgency and
creation timestamp keep their input order: any such pair occurring in that
order in the input occurs in that order in the output. -/
theorem sort_stable_on_ties (R : List BloodRequest) (a b : BloodRequest)
    (hu : a.urgency = b.urgency) (ht : a.createdAt = b.createdAt)
    (hab : List.Sublist [a, b] R) :
    List.Sublist [a, b] (sortRequests R) :=
  show List.Sublist [a, b] (List.insertionSort sortLE R) from
    List.pair_sublist_insertionSort
      ((sortLE_iff_of_eq_urgency hu).mpr (by simp [ht])) hab

/-- Witness for C6 at a concrete tied pair. -/
theorem sort_stable_on_ties_witness :
    (wTie1.urgency = wTie2.urgency ∧ wTie1.createdAt = wTie2.createdAt ∧
      List.Sublist [wTie1, wTie2] [wTie1, wTie2]) ∧
    List.Sublist [wTie1, wTie2] (sortRequests [wTie1, wTie2]) :=
  ⟨⟨rfl, rfl, List.Sublist.refl _⟩,
    sort_stable_on_ties [wTie1, wTie2] wTie1 wTie2 rfl rfl (List.Sublist.refl _)⟩

/-- Claim C7 counterexample: with both filters at their defaults the engine
still sorts, so its output differs from the input snapshot when the
snapshot is not already in composite sort order. -/
theorem reset_not_identity_counterexample :
    filteredRequests [wLow, wUrg] "all" "" ≠ [wLow, wUrg] := by decide

/-- Claim C7 amended: reset restores the blood-group filter to `"all"` and
the location filter to `""`, and with those defaults the engine retains
every record of the snapshot — the output is a permutation of the input
(the input re-sorted), not necessarily the input itself. -/
theorem reset_defaults_unfiltered_perm :
    (∀ s : PageState, (resetFilters s).bloodGroupFilter = "all" ∧
      (resetFilters s).locationFilter = "") ∧
    (∀ R : List BloodRequest, List.Perm (filteredRequests R "all" "") R) := by
  refine ⟨fun s => ⟨rfl, rfl⟩, fun R => ?_⟩
  have h1 : R.filter (bloodGroupPred "all") = R :=
    List.filter_eq_self.mpr (fun a _ => rfl)
  have h2 : R.filter (locationPred "") = R :=
    List.filter_eq_self.mpr (fun a _ => rfl)
  unfold filteredRequests sortRequests
  rw [h1, h2]
  exact List.perm_insertionSort sortLE R

/-- Claim C8: the sort step is idempotent on every record sequence. -/
theorem sort_idempotent (R : List BloodRequest) :
    sortRequests (sortRequests R) = sortRequests R :=
  insertionSort_eq_of_chain' _ (chain'_insertionSort R)

/-- Claim C9: executing the pipeline against the array heap leaves the
`requests` snapshot array unchanged (each `filter` copies; `sort` mutates
only the second copy), returns a freshly allocated array distinct from the
snapshot, and that array holds exactly the pure `filteredRequests`
transform of the snapshot. -/
theorem engine_pure_frame (h : Heap) (reqRef : Nat) (g l : String)
    (href : reqRef < h.arrs.length) :
    readArr (runFilteredRequests h reqRef g l).1 reqRef = readArr h reqRef ∧
    (runFilteredRequests h reqRef g l).2 ≠ reqRef ∧
    readArr (runFilteredRequests h reqRef g l).1 (runFilteredRequests h reqRef g l).2 =
      filteredRequests (readArr h reqRef) g l := by
  refine ⟨?_, ?_, ?_⟩
  · simp only [runFilteredRequests]
    rw [readArr_writeArr_ne _ _ _ _ (by simp only [allocArr_snd, allocArr_length]; omega)]
    rw [readArr_allocArr_of_lt _ _ _ (by simp only [allocArr_length]; omega)]
    rw [readArr_allocArr_of_lt _ _ _ href]
  · simp only [runFilteredRequests, allocArr_snd, allocArr_length]
    omega
  · simp only [runFilteredRequests]
    rw [readArr_writeArr_self _ _ _ (by simp only [allocArr_snd, allocArr_length]; omega)]
    rw [readArr_allocArr_self, readArr_allocArr_self]
    rfl

/-- Witness for C9 at a concrete one-array heap. -/
theorem engine_pure_frame_witness :
    0 < (Heap.mk [[wLow, wUrg]]).arrs.length ∧
    (readArr (runFilteredRequests ⟨[[wLow, wUrg]]⟩ 0 "all" "").1 0 =
        readArr ⟨[[wLow, wUrg]]⟩ 0 ∧
      (runFilteredRequests ⟨[[wLow, wUrg]]⟩ 0 "all" "").2 ≠ 0 ∧
      readArr (runFilteredRequests ⟨[[wLow, wUrg]]⟩ 0 "all" "").1
          (runFilteredRequests ⟨[[wLow, wUrg]]⟩ 0 "all" "").2 =
        filteredRequests (readArr ⟨[[wLow, wUrg]]⟩ 0) "all" "") :=
  ⟨by decide, engine_pure_frame ⟨[[wLow, wUrg]]⟩ 0 "all" "" (by decide)⟩

/-- Claim C10: the snapshot mapping is length-preserving and pointwise sends
each delivered document to a typed record whose `id` is the document
identifier (attached, not taken from the stored payload) and whose
`createdAt` is the coerced wire timestamp. -/
theorem snapshot_attaches_id_and_timestamp (docs : List SnapshotDoc) (i : Nat)
    (d : SnapshotDoc) (hd : docs[i]? = some d) :
    (mapSnapshot docs).length = docs.length ∧
    (mapSnapshot docs)[i]? = some (toBloodRequest d) ∧
    (toBloodRequest d).id = some d.id ∧
    (toBloodRequest d).createdAt = coerceTimestamp d.data.createdAt := by
  refine ⟨by simp [mapSnapshot], ?_, rfl, rfl⟩
  simp [mapSnapshot, List.getElem?_map, hd]

/-- Witness for C10 at a concrete one-document snapshot. -/
theorem snapshot_attaches_id_and_timestamp_witness :
    ([wDoc])[0]? = some wDoc ∧
    ((mapSnapshot [wDoc]).length = ([wDoc] : List SnapshotDoc).length ∧
      (mapSnapshot [wDoc])[0]? = some (toBloodRequest wDoc) ∧
      (toBloodRequest wDoc).id = some wDoc.id ∧
      (toBloodRequest wDoc).createdAt = coerceTimestamp wDoc.data.createdAt) :=
  ⟨rfl, snapshot_attaches_id_and_timestamp [wDoc] 0 wDoc rfl⟩

end BloodLink
